import Mathlib

/-!
Verification of the grok-bot chat-relay core.

Shallow embedding of the Go sources of `grok-bot`:

* `bot/history.go`   — per-channel bounded rolling history (`ChatHistory`);
* `bot/grok_client.go` — message data model, username-tagging request
  formatting and response parsing of the completion gateway;
* `bot/bot.go`       — the dispatcher (`handleMessage`) and the startup
  history-seeding routine (`populateHistoryFromChannels`).

Modelling conventions:

* Go strings become `String`; `strings.TrimSpace`, `strings.ReplaceAll`,
  `strings.ToLower` and `strings.Contains` are embedded below as the
  executable `trimSpace`, `replaceAll`, `toLowerStr` and `containsSubstr`
  over the character lists of strings.
* The Go map `map[string][]ChatMessage` is modelled as a total function
  `String → List ChatMessage`; a key absent from the Go map reads as the nil
  slice, i.e. `[]`, which the function model returns for unseen keys.
* `interface{}` message content is modelled by the tagged variant `Content`
  with a third constructor `other` for any dynamic type that is neither a
  string nor a `[]ContentItem` (the shapes the Go type switches handle).
* Network / Discord I-O (the HTTP exchange of `CreateChatCompletion`, image
  download, Discord sends) is abstracted: the HTTP exchange is a `transport`
  function argument producing either an error or parsed choices, resolved
  attachment image data-URLs arrive as a field of the inbound event, and
  outbound sends are recorded in the dispatcher result.
* The mutex of `ChatHistory` guards the map; the embedding is the sequential
  semantics of the critical sections.
* Go slice aliasing (needed for the copy-semantics claim about `Get`) is
  modelled separately and explicitly by `MemHeap` / `MemChatHistory`, where
  slices are references into a heap and `Get` allocates a fresh reference.
-/

/-- Struct `ContentItem` from `grok_client.go`: one part of a multimodal message,
either a text span (`type = "text"`) or an image reference
(`type = "image_url"`, with the URL behind a pointer in Go). -/
structure ContentItem where
  type : String
  text : String
  imageURL : Option String
deriving DecidableEq, Repr

/-- The dynamic `Content interface{}` of a `ChatMessage`: a plain string, a
slice of `ContentItem`, or any other dynamic value (`other`), which the Go
type switches treat as the default case. -/
inductive Content where
  | str (s : String)
  | items (l : List ContentItem)
  | other
deriving DecidableEq, Repr

/-- Struct `ChatMessage` from `grok_client.go`. -/
structure ChatMessage where
  role : String
  content : Content
  username : String
deriving DecidableEq, Repr

/-- Struct `ChatHistory` from `history.go` (mutex dropped, map as total function;
missing keys read as `[]`, matching Go's nil-slice map read). -/
structure ChatHistory where
  maxMessages : Nat
  channelToMessages : String → List ChatMessage

/-- Constructor `NewChatHistory` from `history.go`: capacity `max ≤ 0` is coerced to 1. -/
def NewChatHistory (max : Int) : ChatHistory :=
  { maxMessages := (if max ≤ 0 then 1 else max).toNat
    channelToMessages := fun _ => [] }

/-- Method `ChatHistory.Append` from `history.go`: append, then trim to the last
`maxMessages` entries when the bound is exceeded. -/
def ChatHistory.Append (h : ChatHistory) (channelID : String) (message : ChatMessage) :
    ChatHistory :=
  let messages := h.channelToMessages channelID ++ [message]
  { h with channelToMessages := fun c =>
      if c = channelID then
        if messages.length > h.maxMessages then
          messages.drop (messages.length - h.maxMessages)
        else messages
      else h.channelToMessages c }

/-- Method `ChatHistory.Get` from `history.go`: the stored sequence for a channel
(the defensive copy is a value in the pure model; aliasing is treated in the
`Mem` model below). -/
def ChatHistory.Get (h : ChatHistory) (channelID : String) : List ChatMessage :=
  h.channelToMessages channelID

/-- Method `ChatHistory.SetMax` from `history.go`: coerce `newMax ≤ 0` to 1, then
trim every channel's sequence that exceeds the new bound. -/
def ChatHistory.SetMax (h : ChatHistory) (newMax : Int) : ChatHistory :=
  let nm := (if newMax ≤ 0 then 1 else newMax).toNat
  { maxMessages := nm
    channelToMessages := fun cid =>
      let msgs := h.channelToMessages cid
      if msgs.length > nm then msgs.drop (msgs.length - nm) else msgs }

/-- Method `ChatHistory.GetMax` from `history.go`. -/
def ChatHistory.GetMax (h : ChatHistory) : Nat :=
  h.maxMessages

/-- The last `n` elements of a list, in order: the window the trimming in
`Append` / `SetMax` keeps. -/
def lastWindow (n : Nat) (l : List α) : List α :=
  l.drop (l.length - n)

/-- Folding a batch of `Append` calls for one channel, oldest first. -/
def runAppends (h : ChatHistory) (channelID : String) (ms : List ChatMessage) : ChatHistory :=
  ms.foldl (fun h m => h.Append channelID m) h

/-- Folding `Append` calls that may target different channels. -/
def runAppendOps (h : ChatHistory) (ops : List (String × ChatMessage)) : ChatHistory :=
  ops.foldl (fun h p => h.Append p.1 p.2) h

theorem lastWindow_length (n : Nat) (l : List α) :
    (lastWindow n l).length = min l.length n := by
  simp [lastWindow]
  omega

theorem lastWindow_of_le {n : Nat} {l : List α} (h : l.length ≤ n) :
    lastWindow n l = l := by
  simp only [lastWindow, Nat.sub_eq_zero_of_le h, List.drop_zero]

theorem lastWindow_eq_reverse_take (n : Nat) (l : List α) :
    lastWindow n l = (l.reverse.take n).reverse := by
  simp [lastWindow, List.reverse_take]

theorem lastWindow_append (n : Nat) (l l' : List α) :
    lastWindow n (lastWindow n l ++ l') = lastWindow n (l ++ l') := by
  simp only [lastWindow_eq_reverse_take]
  simp [List.take_append_eq_append_take, List.take_take, List.length_take]

theorem lastWindow_subset (n : Nat) (l : List α) : lastWindow n l ⊆ l := by
  simp [lastWindow]
  exact List.drop_subset _ l

theorem ChatHistory.Append_maxMessages (h : ChatHistory) (k : String) (m : ChatMessage) :
    (h.Append k m).maxMessages = h.maxMessages := rfl

theorem ChatHistory.Get_Append_self (h : ChatHistory) (k : String) (m : ChatMessage) :
    (h.Append k m).Get k = lastWindow h.maxMessages (h.Get k ++ [m]) := by
  unfold ChatHistory.Append ChatHistory.Get
  dsimp only
  rw [if_pos rfl]
  by_cases hc : (h.channelToMessages k ++ [m]).length > h.maxMessages
  · rw [if_pos hc]; rfl
  · rw [if_neg hc, lastWindow_of_le (by omega)]

theorem ChatHistory.Get_Append_ne (h : ChatHistory) (k k' : String) (m : ChatMessage)
    (hne : k' ≠ k) : (h.Append k m).Get k' = h.Get k' := by
  simp [ChatHistory.Append, ChatHistory.Get, hne]

theorem runAppends_get (ms : List ChatMessage) (h : ChatHistory) (k : String)
    (hlen : (h.Get k).length ≤ h.maxMessages) :
    (runAppends h k ms).Get k = lastWindow h.maxMessages (h.Get k ++ ms) := by
  induction ms generalizing h with
  | nil => simp [runAppends, lastWindow_of_le hlen]
  | cons m ms ih =>
    have hstep := ChatHistory.Get_Append_self h k m
    have hmax := ChatHistory.Append_maxMessages h k m
    have hlen' : ((h.Append k m).Get k).length ≤ (h.Append k m).maxMessages := by
      rw [hstep, hmax, lastWindow_length]
      omega
    calc (runAppends (h.Append k m) k ms).Get k
        = lastWindow (h.Append k m).maxMessages ((h.Append k m).Get k ++ ms) := ih _ hlen'
      _ = lastWindow h.maxMessages (lastWindow h.maxMessages (h.Get k ++ [m]) ++ ms) := by
          rw [hmax, hstep]
      _ = lastWindow h.maxMessages ((h.Get k ++ [m]) ++ ms) := lastWindow_append _ _ _
      _ = lastWindow h.maxMessages (h.Get k ++ (m :: ms)) := by simp

theorem runAppends_maxMessages (ms : List ChatMessage) (h : ChatHistory) (k : String) :
    (runAppends h k ms).maxMessages = h.maxMessages := by
  induction ms generalizing h with
  | nil => rfl
  | cons m ms ih => exact (ih (h.Append k m)).trans rfl

theorem NewChatHistory_maxMessages {C : Int} (hC : 1 ≤ C) :
    (NewChatHistory C).maxMessages = C.toNat := by
  simp [NewChatHistory]
  omega

theorem runAppendOps_unseen (ops : List (String × ChatMessage)) (h : ChatHistory) (k : String)
    (hk : ∀ p ∈ ops, p.1 ≠ k) : (runAppendOps h ops).Get k = h.Get k := by
  induction ops generalizing h with
  | nil => rfl
  | cons p ops ih =>
    have hstep : (h.Append p.1 p.2).Get k = h.Get k :=
      ChatHistory.Get_Append_ne h p.1 k p.2 (Ne.symm (hk p (List.mem_cons_self p ops)))
    have htail : ∀ q ∈ ops, q.1 ≠ k := fun q hq => hk q (List.mem_cons_of_mem p hq)
    calc (runAppendOps h (p :: ops)).Get k
        = (runAppendOps (h.Append p.1 p.2) ops).Get k := rfl
      _ = (h.Append p.1 p.2).Get k := ih _ htail
      _ = h.Get k := hstep

/-- C1: for capacity `C ≥ 1` and any sequence of appends to one key, the
stored sequence has length `min N C`, equals the last `min N C` appended
messages in order, and its length never exceeds `C` after any number of the
appends. -/
theorem append_bounded_window (C : Int) (hC : 1 ≤ C) (key : String) (ms : List ChatMessage) :
    ((runAppends (NewChatHistory C) key ms).Get key).length = min ms.length C.toNat
    ∧ (runAppends (NewChatHistory C) key ms).Get key = ms.drop (ms.length - C.toNat)
    ∧ ∀ n : Nat,
        ((runAppends (NewChatHistory C) key (ms.take n)).Get key).length ≤ C.toNat := by
  have hmax : (NewChatHistory C).maxMessages = C.toNat := NewChatHistory_maxMessages hC
  have hget0 : (NewChatHistory C).Get key = [] := rfl
  have hrun : ∀ l : List ChatMessage,
      (runAppends (NewChatHistory C) key l).Get key = lastWindow C.toNat l := by
    intro l
    have := runAppends_get l (NewChatHistory C) key (by rw [hget0]; exact Nat.zero_le _)
    rw [hget0, hmax] at this
    simpa using this
  refine ⟨?_, ?_, ?_⟩
  · rw [hrun, lastWindow_length]
  · rw [hrun]; rfl
  · intro n
    rw [hrun, lastWindow_length]
    exact Nat.min_le_right _ _

theorem append_bounded_window_witness :
    (1 : Int) ≤ 2 ∧
    (runAppends (NewChatHistory 2) "k"
        [⟨"user", Content.str "a", ""⟩, ⟨"user", Content.str "b", ""⟩,
         ⟨"user", Content.str "c", ""⟩]).Get "k"
      = ([⟨"user", Content.str "a", ""⟩, ⟨"user", Content.str "b", ""⟩,
          ⟨"user", Content.str "c", ""⟩] : List ChatMessage).drop
          (([⟨"user", Content.str "a", ""⟩, ⟨"user", Content.str "b", ""⟩,
             ⟨"user", Content.str "c", ""⟩] : List ChatMessage).length - (2 : Int).toNat) :=
  ⟨by decide, (append_bounded_window 2 (by decide) "k" _).2.1⟩

/-- C6: `SetMax n` sets the capacity to `max n 1` and trims every key's
stored sequence to the last `max n 1` entries; when the new capacity bounds
every current length, no stored sequence changes. -/
theorem setMax_coerce_and_trim (h : ChatHistory) (n : Int) :
    (h.SetMax n).GetMax = (max n 1).toNat
    ∧ (∀ k, (h.SetMax n).Get k = lastWindow (max n 1).toNat (h.Get k))
    ∧ ((∀ k, (h.Get k).length ≤ (max n 1).toNat) → ∀ k, (h.SetMax n).Get k = h.Get k) := by
  have hnm : (if n ≤ 0 then (1 : Int) else n) = max n 1 := by
    rcases le_or_lt n 0 with h0 | h0
    · rw [if_pos h0, max_eq_right (by omega)]
    · rw [if_neg (by omega), max_eq_left (by omega)]
  have hb : ∀ k, (h.SetMax n).Get k = lastWindow (max n 1).toNat (h.Get k) := by
    intro k
    unfold ChatHistory.SetMax ChatHistory.Get
    dsimp only
    rw [hnm]
    by_cases hc : (h.channelToMessages k).length > (max n 1).toNat
    · rw [if_pos hc]; rfl
    · rw [if_neg hc, lastWindow_of_le (by omega)]
  refine ⟨?_, hb, ?_⟩
  · unfold ChatHistory.SetMax ChatHistory.GetMax
    dsimp only
    rw [hnm]
  · intro hall k
    rw [hb k, lastWindow_of_le (hall k)]

theorem setMax_coerce_and_trim_witness :
    (∀ k, (((NewChatHistory 5).Append "c" ⟨"user", Content.str "x", ""⟩).Get k).length
        ≤ (max (3 : Int) 1).toNat) ∧
    ∀ k, (((NewChatHistory 5).Append "c" ⟨"user", Content.str "x", ""⟩).SetMax 3).Get k
        = ((NewChatHistory 5).Append "c" ⟨"user", Content.str "x", ""⟩).Get k :=
  ⟨fun k => by
      unfold ChatHistory.Append ChatHistory.Get NewChatHistory
      dsimp only
      split <;> simp,
   (setMax_coerce_and_trim ((NewChatHistory 5).Append "c" ⟨"user", Content.str "x", ""⟩) 3).2.2
     (fun k => by
      unfold ChatHistory.Append ChatHistory.Get NewChatHistory
      dsimp only
      split <;> simp)⟩

/-- C10: `Append` on key `k` leaves the stored sequence of any other key
`k'` unchanged. -/
theorem append_frame_other_keys (h : ChatHistory) (k k' : String) (m : ChatMessage)
    (hne : k' ≠ k) : (h.Append k m).Get k' = h.Get k' :=
  ChatHistory.Get_Append_ne h k k' m hne

theorem append_frame_other_keys_witness :
    ("a" : String) ≠ "b" ∧
    ((NewChatHistory 3).Append "b" ⟨"user", Content.str "x", ""⟩).Get "a"
      = (NewChatHistory 3).Get "a" :=
  ⟨by decide, append_frame_other_keys (NewChatHistory 3) "b" "a" ⟨"user", Content.str "x", ""⟩
      (by decide)⟩

/-- Go `strings.ReplaceAll` worker: copy characters, replacing each
non-overlapping occurrence of `pat` (scanned left to right) by `rep`;
`skip` counts characters still inside an occurrence already replaced. -/
def replaceAllGo (pat rep : List Char) : List Char → Nat → List Char
  | [], _ => []
  | _ :: rest, skip + 1 => replaceAllGo pat rep rest skip
  | c :: rest, 0 =>
    if pat.isPrefixOf (c :: rest) then rep ++ replaceAllGo pat rep rest (pat.length - 1)
    else c :: replaceAllGo pat rep rest 0

/-- Go `strings.ReplaceAll` (the embedded code only uses non-empty patterns;
an empty pattern is left as the identity here). -/
def replaceAll (s pat rep : String) : String :=
  match pat.data with
  | [] => s
  | _ :: _ => ⟨replaceAllGo pat.data rep.data s.data 0⟩

/-- Go `strings.TrimSpace`: drop leading and trailing whitespace. -/
def trimSpace (s : String) : String :=
  ⟨((s.data.dropWhile Char.isWhitespace).reverse.dropWhile Char.isWhitespace).reverse⟩

/-- Go `strings.ToLower`. -/
def toLowerStr (s : String) : String :=
  ⟨s.data.map Char.toLower⟩

/-- Go `strings.Contains`: some position of `s` starts with `pat`. -/
def containsSubstr (s pat : String) : Bool :=
  (List.range (s.data.length + 1)).any fun i => pat.data.isPrefixOf (s.data.drop i)

/-- One entry of `ChatCompletionResponse.Choices` (grok_client.go): the
fields the response parser reads. -/
structure Choice where
  role : String
  content : Content
deriving DecidableEq, Repr

/-- The tail of `CreateChatCompletion` (grok_client.go lines 154–174): fail
on zero choices, return a string content unchanged, concatenate the text of
`text`-typed items of a multimodal content, and reject any other dynamic
content type. -/
def extractResponseText (choices : List Choice) : Except String String :=
  match choices with
  | [] => Except.error "no choices returned from XAI API"
  | choice :: _ =>
    match choice.content with
    | Content.str s => Except.ok s
    | Content.items l =>
      Except.ok (l.foldl (fun acc item => if item.type == "text" then acc ++ item.text else acc) "")
    | Content.other => Except.error "unexpected content type in response"

/-- The username-tagging step of `CreateChatCompletion` (grok_client.go
lines 87–105), for one message of the outbound copy: a `user`-role message
with a non-empty username gets its string content, or each of its
`text`-typed items, prefixed with the bracketed username. -/
def formatMessage (msg : ChatMessage) : ChatMessage :=
  if msg.username ≠ "" ∧ msg.role = "user" then
    match msg.content with
    | Content.str s =>
      { msg with content := Content.str ("[" ++ msg.username ++ "]: " ++ s) }
    | Content.items l =>
      { msg with content := Content.items (l.map fun item =>
          if item.type = "text" then
            { item with text := "[" ++ msg.username ++ "]: " ++ item.text }
          else item) }
    | Content.other => msg
  else msg

/-- The fresh `formattedMessages` slice built by `CreateChatCompletion`;
the input `messages` slice is not written to. -/
def formatMessages (messages : List ChatMessage) : List ChatMessage :=
  messages.map formatMessage

/-- Function `CreateChatCompletion` (grok_client.go): format the outbound copy of the
messages, run the HTTP exchange, then parse the first choice. The exchange —
JSON marshalling, the POST, status handling and unmarshalling (lines
108–152) — is I-O and is abstracted by `transport`, which returns either an
error (transport failure, non-OK status, or unparsable body) or the parsed
`Choices` of a 200 response. -/
def CreateChatCompletion (transport : List ChatMessage → Except String (List Choice))
    (messages : List ChatMessage) : Except String String :=
  match transport (formatMessages messages) with
  | Except.error e => Except.error e
  | Except.ok choices => extractResponseText choices

/-- Function `CreateTextMessage` (grok_client.go). -/
def CreateTextMessage (role content username : String) : ChatMessage :=
  { role := role, content := Content.str content, username := username }

/-- Function `CreateMultimodalMessage` (grok_client.go): with no images, a plain text
message; otherwise an item list holding the text item (only when the text is
non-empty) followed by one `image_url` item per image. -/
def CreateMultimodalMessage (role textContent : String) (imageURLs : List String)
    (username : String) : ChatMessage :=
  if imageURLs.isEmpty then CreateTextMessage role textContent username
  else
    { role := role
      content := Content.items
        ((if textContent ≠ "" then [ContentItem.mk "text" textContent none] else [])
          ++ imageURLs.map fun imgURL => ContentItem.mk "image_url" "" (some imgURL))
      username := username }

/-- The fields of a Discord `MessageCreate` event that `handleMessage`
reads; attachment resolution (download + base64 data-URL conversion,
`extractImageURLsFromAttachments`) is I-O and arrives here as the resolved
`imageURLs` list; `mentionIDs` are the IDs of `message.Mentions`. -/
structure InboundMessage where
  authorID : String
  authorUsername : String
  content : String
  channelID : String
  mentionIDs : List String
  imageURLs : List String

/-- The observable outcome of one `handleMessage` run: the history after the
event, the payload passed to `CreateChatCompletion` (if any), and the text
sent back to the channel (the apology on failure, the response on success,
nothing for an unaddressed message). -/
structure DispatchResult where
  history : ChatHistory
  request : Option (List ChatMessage)
  reply : Option String

/-- The generic apology `handleMessage` sends when the completion fails. -/
def apologyMessage : String :=
  "Sorry, I encountered an error processing your request. Please try again."

/-- Function `doesMessageMention` (bot.go lines 503–510): some mentioned user has the
given ID. -/
def doesMessageMention (users : List String) (id : String) : Bool :=
  users.any fun user => user == id

/-- Function `handleMessage` (bot.go lines 249–295). Bot-authored events are ignored.
An event whose mention list does not contain the bot is appended to history
as an observation. Otherwise the `<@botID>` markup is removed from the
trimmed text, the request (system prompt, prior history, new turn) is
assembled and completed; on failure the apology is sent and history is left
alone, on success the user turn and the assistant reply are appended and the
response is sent (size-based routing of the send is I-O and not modelled). -/
def handleMessage (botID defaultSystemMessage : String)
    (transport : List ChatMessage → Except String (List Choice))
    (h : ChatHistory) (message : InboundMessage) : DispatchResult :=
  if message.authorID = botID then
    { history := h, request := none, reply := none }
  else
    let content := trimSpace message.content
    let channelID := message.channelID
    let imageURLs := message.imageURLs
    if !doesMessageMention message.mentionIDs botID then
      { history := h.Append channelID
          (CreateMultimodalMessage "user" content imageURLs message.authorUsername)
        request := none
        reply := none }
    else
      let content := replaceAll content ("<@" ++ botID ++ ">") ""
      let messages :=
        [ChatMessage.mk "system" (Content.str defaultSystemMessage) ""]
          ++ h.Get channelID
          ++ [CreateMultimodalMessage "user" content imageURLs message.authorUsername]
      match CreateChatCompletion transport messages with
      | Except.error _ =>
        { history := h, request := some messages, reply := some apologyMessage }
      | Except.ok response =>
        { history :=
            (h.Append channelID
                (CreateMultimodalMessage "user" content imageURLs message.authorUsername)).Append
              channelID (CreateTextMessage "assistant" response "")
          request := some messages
          reply := some response }

/-- C9: a successfully parsed response whose first choice is an item list
yields exactly the in-order concatenation of its `text`-typed items (image
items dropped); a plain string content is returned unchanged. -/
theorem response_text_extraction (role : String) (l : List ContentItem)
    (rest : List Choice) (s : String) :
    extractResponseText (Choice.mk role (Content.items l) :: rest)
      = Except.ok (String.join ((l.filter fun it => it.type == "text").map fun it => it.text))
    ∧ extractResponseText (Choice.mk role (Content.str s) :: rest) = Except.ok s := by
  constructor
  · have hjoin : ∀ (a : String) (L : List String), String.join (a :: L) = a ++ String.join L := by
      intro a L
      apply String.ext
      simp [String.data_join]
    have key : ∀ acc : String,
        l.foldl (fun acc item => if item.type == "text" then acc ++ item.text else acc) acc
          = acc ++ String.join ((l.filter fun it => it.type == "text").map fun it => it.text) := by
      induction l with
      | nil => intro acc; simp [String.join]
      | cons it l ih =>
        intro acc
        by_cases hit : (it.type == "text") = true
        · rw [List.foldl_cons, if_pos hit, ih, List.filter_cons, if_pos hit, List.map_cons,
            hjoin, String.append_assoc]
        · rw [List.foldl_cons, if_neg hit, ih, List.filter_cons, if_neg hit]
    simpa [extractResponseText] using key ""
  · rfl

/-- C2 is refuted by the live dispatcher: this message's lower-cased text
contains the trigger token "@grok", yet with no bot mention in the mention
list `handleMessage` makes no completion request (it only records the
message as an observation), contradicting the claimed "if and only if". -/
theorem mention_only_addressing_cex :
    containsSubstr (toLowerStr "@grok hi") "@grok" = true
    ∧ (handleMessage "B" "sys" (fun _ => Except.error "down") (NewChatHistory 5)
        (InboundMessage.mk "A" "alice" "@grok hi" "ch" [] [])).request = none := by
  exact ⟨by decide, by decide⟩

/-- C2 (amended): a message not authored by the bot is treated as addressed
— a completion request is made — exactly when its mention list contains the
bot's identity; the textual "@grok" trigger plays no role in the live
dispatcher (only the startup seeding heuristic uses it). -/
theorem addressed_iff_mentioned (botID sys : String)
    (transport : List ChatMessage → Except String (List Choice))
    (h : ChatHistory) (m : InboundMessage) (hna : m.authorID ≠ botID) :
    (handleMessage botID sys transport h m).request.isSome
      = doesMessageMention m.mentionIDs botID := by
  unfold handleMessage
  rw [if_neg hna]
  cases hm : doesMessageMention m.mentionIDs botID with
  | false => simp [hm]
  | true =>
    simp only [hm, Bool.not_true, Bool.false_eq_true, if_false]
    split <;> rfl

theorem addressed_iff_mentioned_witness :
    ("A" : String) ≠ "B"
    ∧ (handleMessage "B" "sys" (fun _ => Except.error "down") (NewChatHistory 5)
        (InboundMessage.mk "A" "alice" "hello" "ch" ["B"] [])).request.isSome
      = doesMessageMention ["B"] "B" :=
  ⟨by decide,
   addressed_iff_mentioned "B" "sys" (fun _ => Except.error "down") (NewChatHistory 5)
     (InboundMessage.mk "A" "alice" "hello" "ch" ["B"] []) (by decide)⟩

/-- C5: whenever the dispatcher issued a completion request and that call
failed, the reply sent is the generic apology and the history is exactly the
history from before the event. -/
theorem failure_leaves_history_unchanged (botID sys : String)
    (transport : List ChatMessage → Except String (List Choice))
    (h : ChatHistory) (m : InboundMessage) (msgs : List ChatMessage) (e : String)
    (hreq : (handleMessage botID sys transport h m).request = some msgs)
    (herr : CreateChatCompletion transport msgs = Except.error e) :
    (handleMessage botID sys transport h m).history = h
    ∧ (handleMessage botID sys transport h m).reply = some apologyMessage := by
  unfold handleMessage at hreq ⊢
  by_cases hna : m.authorID = botID
  · rw [if_pos hna] at hreq
    cases hreq
  · rw [if_neg hna] at hreq ⊢
    cases hm : doesMessageMention m.mentionIDs botID with
    | false =>
      simp only [hm, Bool.not_false, if_true] at hreq
      cases hreq
    | true =>
      simp only [hm, Bool.not_true, Bool.false_eq_true, if_false] at hreq ⊢
      split at hreq
      · cases hreq
        exact ⟨rfl, rfl⟩
      · next hE =>
        cases hreq
        rw [herr] at hE
        cases hE

theorem failure_leaves_history_unchanged_witness :
    (handleMessage "B" "sys" (fun _ => Except.error "down") (NewChatHistory 5)
        (InboundMessage.mk "A" "alice" "hi" "ch" ["B"] [])).request
      = some [ChatMessage.mk "system" (Content.str "sys") "",
              ChatMessage.mk "user" (Content.str "hi") "alice"]
    ∧ CreateChatCompletion (fun _ => Except.error "down")
        [ChatMessage.mk "system" (Content.str "sys") "",
         ChatMessage.mk "user" (Content.str "hi") "alice"]
      = Except.error "down"
    ∧ (handleMessage "B" "sys" (fun _ => Except.error "down") (NewChatHistory 5)
        (InboundMessage.mk "A" "alice" "hi" "ch" ["B"] [])).reply = some apologyMessage :=
  ⟨by decide, rfl,
   (failure_leaves_history_unchanged "B" "sys" (fun _ => Except.error "down") (NewChatHistory 5)
     (InboundMessage.mk "A" "alice" "hi" "ch" ["B"] [])
     [ChatMessage.mk "system" (Content.str "sys") "",
      ChatMessage.mk "user" (Content.str "hi") "alice"]
     "down" (by decide) rfl).2⟩

/-- Modelled from the spec (content-cleaning policy of §4.2, for comparison
with the code): remove every case-insensitive occurrence of a token from a
string, scanning left to right and keeping all other characters; worker over
the character list, `skip` counting characters inside a removed occurrence. -/
def stripTokenCIGo (tok : List Char) : List Char → Nat → List Char
  | [], _ => []
  | _ :: rest, skip + 1 => stripTokenCIGo tok rest skip
  | c :: rest, 0 =>
    if ((c :: rest).take tok.length).map Char.toLower = tok then
      stripTokenCIGo tok rest (tok.length - 1)
    else c :: stripTokenCIGo tok rest 0

/-- Modelled from the spec: case-insensitive removal of all occurrences of
`tok` from `s` (the "strip case-insensitive occurrences of the trigger
token" step the spec describes). -/
def stripTokenCaseInsensitive (s tok : String) : String :=
  ⟨stripTokenCIGo (tok.data.map Char.toLower) s.data 0⟩

/-- C4 is refuted: for the addressed message "@grok hi" (bot mentioned in
the mention list), the spec's cleaning — markup removal, case-insensitive
trigger-token removal, trim — yields "hi", but the dispatcher stores and
sends "@grok hi": `handleMessage` never strips the trigger token. -/
theorem trigger_token_not_stripped_cex :
    ((handleMessage "B" "sys" (fun _ => Except.ok [Choice.mk "assistant" (Content.str "yo")])
        (NewChatHistory 5)
        (InboundMessage.mk "A" "alice" "@grok hi" "ch" ["B"] [])).history.Get "ch"
      = [ChatMessage.mk "user" (Content.str "@grok hi") "alice",
         ChatMessage.mk "assistant" (Content.str "yo") ""])
    ∧ trimSpace (stripTokenCaseInsensitive (replaceAll "@grok hi" ("<@" ++ "B" ++ ">") "")
        "@grok") = "hi"
    ∧ ("@grok hi" : String) ≠ "hi" := by
  exact ⟨by decide, by decide, by decide⟩

/-- C4 (amended): for an addressed message the content that is sent in the
completion request and stored in history on success is the original text
first trimmed of surrounding whitespace and then with the literal `<@botID>`
mention markup removed — the trigger token is not stripped and no further
trim follows the removal. -/
theorem clean_content_mention_markup_only (botID sys : String)
    (transport : List ChatMessage → Except String (List Choice))
    (h : ChatHistory) (m : InboundMessage)
    (hna : m.authorID ≠ botID) (hm : doesMessageMention m.mentionIDs botID = true) :
    (handleMessage botID sys transport h m).request
      = some ([ChatMessage.mk "system" (Content.str sys) ""]
          ++ h.Get m.channelID
          ++ [CreateMultimodalMessage "user"
                (replaceAll (trimSpace m.content) ("<@" ++ botID ++ ">") "")
                m.imageURLs m.authorUsername])
    ∧ ∀ resp : String,
        CreateChatCompletion transport
            ([ChatMessage.mk "system" (Content.str sys) ""]
              ++ h.Get m.channelID
              ++ [CreateMultimodalMessage "user"
                    (replaceAll (trimSpace m.content) ("<@" ++ botID ++ ">") "")
                    m.imageURLs m.authorUsername])
          = Except.ok resp →
        (handleMessage botID sys transport h m).history
          = (h.Append m.channelID
                (CreateMultimodalMessage "user"
                  (replaceAll (trimSpace m.content) ("<@" ++ botID ++ ">") "")
                  m.imageURLs m.authorUsername)).Append
              m.channelID (CreateTextMessage "assistant" resp "") := by
  unfold handleMessage
  rw [if_neg hna]
  simp only [hm, Bool.not_true, Bool.false_eq_true, if_false]
  constructor
  · split <;> rfl
  · intro resp hok
    split
    · next hE => rw [hok] at hE; cases hE
    · next hE =>
      rw [hok] at hE
      cases hE
      rfl

theorem clean_content_mention_markup_only_witness :
    ("A" : String) ≠ "B"
    ∧ doesMessageMention ["B"] "B" = true
    ∧ (handleMessage "B" "sys" (fun _ => Except.ok [Choice.mk "assistant" (Content.str "yo")])
        (NewChatHistory 5)
        (InboundMessage.mk "A" "alice" " <@B> @grok hi " "ch" ["B"] [])).request
      = some ([ChatMessage.mk "system" (Content.str "sys") ""]
          ++ (NewChatHistory 5).Get "ch"
          ++ [CreateMultimodalMessage "user"
                (replaceAll (trimSpace " <@B> @grok hi ") ("<@" ++ "B" ++ ">") "")
                [] "alice"]) :=
  ⟨by decide, by decide,
   (clean_content_mention_markup_only "B" "sys"
     (fun _ => Except.ok [Choice.mk "assistant" (Content.str "yo")]) (NewChatHistory 5)
     (InboundMessage.mk "A" "alice" " <@B> @grok hi " "ch" ["B"] [])
     (by decide) (by decide)).1⟩

theorem formatMessages_lastWindow (n : Nat) (l : List ChatMessage) :
    formatMessages (lastWindow n l) = lastWindow n (formatMessages l) := by
  simp [formatMessages, lastWindow, List.map_drop]

theorem formatMessage_no_username (msg : ChatMessage) (hu : msg.username = "") :
    formatMessage msg = msg := by
  simp [formatMessage, hu]

theorem formatMessage_user_str (s u : String) (hu : u ≠ "") :
    formatMessage (ChatMessage.mk "user" (Content.str s) u)
      = ChatMessage.mk "user" (Content.str ("[" ++ u ++ "]: " ++ s)) u := by
  simp [formatMessage, hu]

theorem handleMessage_ok_history (botID sys : String)
    (transport : List ChatMessage → Except String (List Choice))
    (h : ChatHistory) (m : InboundMessage) (resp : String)
    (hna : m.authorID ≠ botID) (hm : doesMessageMention m.mentionIDs botID = true)
    (hok : CreateChatCompletion transport
        ([ChatMessage.mk "system" (Content.str sys) ""]
          ++ h.Get m.channelID
          ++ [CreateMultimodalMessage "user"
                (replaceAll (trimSpace m.content) ("<@" ++ botID ++ ">") "")
                m.imageURLs m.authorUsername])
      = Except.ok resp) :
    (handleMessage botID sys transport h m).history
      = (h.Append m.channelID
            (CreateMultimodalMessage "user"
              (replaceAll (trimSpace m.content) ("<@" ++ botID ++ ">") "")
              m.imageURLs m.authorUsername)).Append
          m.channelID (CreateTextMessage "assistant" resp "") := by
  unfold handleMessage
  rw [if_neg hna]
  simp only [hm, Bool.not_true, Bool.false_eq_true, if_false]
  split
  · next hE => rw [hok] at hE; cases hE
  · next hE =>
    rw [hok] at hE
    cases hE
    rfl
/-- Relation stating the spec's username-tagging description, for comparison
with the code's `formatMessage`: a `user`-role entry with a non-empty
username keeps its role and username and has its visible text rewritten as
the bracketed username followed by the original text — the plain string
content, or each `text`-typed item of a multimodal content, with the item's
type and image reference untouched and non-text items unchanged — while
every other entry is left unmodified. -/
def specUsernameTagged (e e' : ChatMessage) : Prop :=
  if e.role = "user" ∧ e.username ≠ "" then
    e'.role = e.role ∧ e'.username = e.username ∧
    (match e.content, e'.content with
     | Content.str s, Content.str s' => s' = "[" ++ e.username ++ "]: " ++ s
     | Content.items l, Content.items l' =>
       l'.length = l.length ∧
       ∀ (j : Nat) (hj : j < l.length) (hj' : j < l'.length),
         if (l.get ⟨j, hj⟩).type = "text" then
           l'.get ⟨j, hj'⟩ = ContentItem.mk (l.get ⟨j, hj⟩).type
             ("[" ++ e.username ++ "]: " ++ (l.get ⟨j, hj⟩).text)
             (l.get ⟨j, hj⟩).imageURL
         else l'.get ⟨j, hj'⟩ = l.get ⟨j, hj⟩
     | Content.other, Content.other => True
     | _, _ => False)
  else e' = e

theorem formatMessage_tagged (e : ChatMessage) : specUsernameTagged e (formatMessage e) := by
  unfold specUsernameTagged formatMessage
  by_cases hc : e.role = "user" ∧ e.username ≠ ""
  · rw [if_pos hc, if_pos ⟨hc.2, hc.1⟩]
    cases he : e.content with
    | str s => exact ⟨rfl, rfl, rfl⟩
    | items l =>
      refine ⟨rfl, rfl, by simp, ?_⟩
      intro j hj hj'
      have hmap : (l.map fun item =>
            if item.type = "text" then
              { item with text := "[" ++ e.username ++ "]: " ++ item.text }
            else item).get ⟨j, hj'⟩
          = if (l.get ⟨j, hj⟩).type = "text" then
              { l.get ⟨j, hj⟩ with
                text := "[" ++ e.username ++ "]: " ++ (l.get ⟨j, hj⟩).text }
            else l.get ⟨j, hj⟩ := by
        simp
      by_cases ht : (l.get ⟨j, hj⟩).type = "text"
      · rw [if_pos ht, hmap, if_pos ht]
      · rw [if_neg ht, hmap, if_neg ht]
    | other => exact ⟨rfl, rfl, by rw [he]; trivial⟩
  · rw [if_neg hc, if_neg fun hAnd => hc ⟨hAnd.2, hAnd.1⟩]

/-- C8: username tagging happens only in the outbound payload. First, for
every message list passed to the completion call, the formatted copy is
entrywise the spec's tagged version: each `user`-role entry with a username
has its plain string, or every `text`-typed item of its multimodal content,
rewritten as the bracketed username plus the original text (image items and
all other entries untouched); the input list is a value, so the messages
passed in are left unmodified. Second, for an addressed event whose
completion succeeds, the history stores the untagged user turn (any content
shape) and the assistant reply. Third, formatting that stored history for
the next request tags each stored entry exactly once — the prefix never
compounds because storage keeps the original. -/
theorem username_tagging_outbound_only (botID sys : String)
    (transport : List ChatMessage → Except String (List Choice))
    (h : ChatHistory) (m : InboundMessage) (resp : String)
    (hna : m.authorID ≠ botID) (hm : doesMessageMention m.mentionIDs botID = true)
    (hok : CreateChatCompletion transport
        ([ChatMessage.mk "system" (Content.str sys) ""]
          ++ h.Get m.channelID
          ++ [CreateMultimodalMessage "user"
                (replaceAll (trimSpace m.content) ("<@" ++ botID ++ ">") "")
                m.imageURLs m.authorUsername])
      = Except.ok resp) :
    (∀ msgs : List ChatMessage,
      (formatMessages msgs).length = msgs.length
      ∧ ∀ (i : Nat) (hi : i < msgs.length) (hi' : i < (formatMessages msgs).length),
          specUsernameTagged (msgs.get ⟨i, hi⟩) ((formatMessages msgs).get ⟨i, hi'⟩))
    ∧ (handleMessage botID sys transport h m).history.Get m.channelID
      = lastWindow h.maxMessages (h.Get m.channelID
          ++ [CreateMultimodalMessage "user"
                (replaceAll (trimSpace m.content) ("<@" ++ botID ++ ">") "")
                m.imageURLs m.authorUsername,
              CreateTextMessage "assistant" resp ""])
    ∧ formatMessages ((handleMessage botID sys transport h m).history.Get m.channelID)
      = lastWindow h.maxMessages (formatMessages (h.Get m.channelID)
          ++ [formatMessage (CreateMultimodalMessage "user"
                (replaceAll (trimSpace m.content) ("<@" ++ botID ++ ">") "")
                m.imageURLs m.authorUsername),
              CreateTextMessage "assistant" resp ""]) := by
  have hhist := handleMessage_ok_history botID sys transport h m resp hna hm hok
  have hget : (handleMessage botID sys transport h m).history.Get m.channelID
      = lastWindow h.maxMessages (h.Get m.channelID
          ++ [CreateMultimodalMessage "user"
                (replaceAll (trimSpace m.content) ("<@" ++ botID ++ ">") "")
                m.imageURLs m.authorUsername,
              CreateTextMessage "assistant" resp ""]) := by
    rw [hhist, ChatHistory.Get_Append_self, ChatHistory.Append_maxMessages,
      ChatHistory.Get_Append_self, lastWindow_append]
    simp
  refine ⟨?_, hget, ?_⟩
  · intro msgs
    refine ⟨by simp [formatMessages], ?_⟩
    intro i hi hi'
    have hmap : (formatMessages msgs).get ⟨i, hi'⟩ = formatMessage (msgs.get ⟨i, hi⟩) := by
      simp [formatMessages]
    rw [hmap]
    exact formatMessage_tagged _
  · rw [hget, formatMessages_lastWindow]
    congr 1
    simp only [formatMessages, List.map_append, List.map_cons, List.map_nil]
    rw [formatMessage_no_username (CreateTextMessage "assistant" resp "") rfl]

theorem username_tagging_outbound_only_witness :
    ("A" : String) ≠ "B"
    ∧ doesMessageMention ["B"] "B" = true
    ∧ (handleMessage "B" "sys"
        (fun _ => Except.ok [Choice.mk "assistant" (Content.str "yo")]) (NewChatHistory 5)
        (InboundMessage.mk "A" "alice" "<@B> look" "ch" ["B"] ["img1"])).history.Get "ch"
      = lastWindow (NewChatHistory 5).maxMessages ((NewChatHistory 5).Get "ch"
          ++ [CreateMultimodalMessage "user"
                (replaceAll (trimSpace "<@B> look") ("<@" ++ "B" ++ ">") "")
                ["img1"] "alice",
              CreateTextMessage "assistant" "yo" ""]) :=
  ⟨by decide, by decide,
   (username_tagging_outbound_only "B" "sys"
     (fun _ => Except.ok [Choice.mk "assistant" (Content.str "yo")]) (NewChatHistory 5)
     (InboundMessage.mk "A" "alice" "<@B> look" "ch" ["B"] ["img1"]) "yo"
     (by decide) (by decide) rfl).2.1⟩

/-- A message has visible text: a non-empty string content, or some
`text`-typed item with non-empty text. -/
def hasText (m : ChatMessage) : Bool :=
  match m.content with
  | Content.str s => s != ""
  | Content.items l => l.any fun it => it.type == "text" && it.text != ""
  | Content.other => false

/-- A message carries image parts: some `image_url`-typed item. -/
def hasImages (m : ChatMessage) : Bool :=
  match m.content with
  | Content.str _ => false
  | Content.items l => l.any fun it => it.type == "image_url"
  | Content.other => false

/-- The C3 notion of an empty message: no text content and no image parts. -/
def messageEmpty (m : ChatMessage) : Bool :=
  !hasText m && !hasImages m

/-- C3 is refuted: an inbound message with empty text, no image attachments
and no bot mention is appended to history by `handleMessage` as a user
message with empty text and no image parts — the live dispatcher has no
emptiness guard (only the seeding routine filters empty input). -/
theorem empty_message_appended_cex :
    (handleMessage "B" "sys" (fun _ => Except.error "e") (NewChatHistory 5)
        (InboundMessage.mk "A" "alice" "" "ch" [] [])).history.Get "ch"
      = [ChatMessage.mk "user" (Content.str "") "alice"]
    ∧ messageEmpty (ChatMessage.mk "user" (Content.str "") "alice") = true := by
  exact ⟨by decide, by decide⟩

/-- One historical Discord message as read by the seeding routine
(`populateHistoryFromChannels`, bot.go): author, text, resolved image
data-URLs (attachment download is I-O and arrives resolved), whether the raw
attachment list is non-empty (used by the valid-message pre-filter), and the
IDs of the mention list. -/
structure HistMessage where
  authorID : String
  authorUsername : String
  content : String
  imageURLs : List String
  mentionIDs : List String
  hasAttachments : Bool

/-- The response scan of the seeding routine (bot.go lines 224–237): from
index `i` of the newest-first list, the first bot-authored message among
indices `i-1 .. i-4` (stopping at the start of the list), yielding its
trimmed content. -/
def seedScanResponse (msgs : List HistMessage) (botID : String) (i : Nat) : Option String :=
  (((List.range 4).filterMap fun d => if d + 1 ≤ i then msgs.get? (i - 1 - d) else none).find?
      fun q => q.authorID == botID).map fun q => trimSpace q.content


/-- The append tail of one seeding iteration (bot.go lines 217–239): when
the cleaned content or the image list is non-empty, append the user turn;
when moreover the turn was addressed and the response scan found a bot
message with non-empty trimmed content, append that assistant turn. -/
def seedAppendTurns (h : ChatHistory) (channelID cleanContent : String)
    (imageURLs : List String) (username : String) (addressed : Bool)
    (responseScan : Option String) : ChatHistory :=
  if cleanContent != "" || !imageURLs.isEmpty then
    let h1 := h.Append channelID
      (CreateMultimodalMessage "user" cleanContent imageURLs username)
    if addressed then
      match responseScan with
      | some responseContent =>
        if responseContent != "" then
          h1.Append channelID (CreateTextMessage "assistant" responseContent "")
        else h1
      | none => h1
    else h1
  else h

/-- One iteration (index `i`, iterated from the oldest index downward) of
the per-channel seeding loop (bot.go lines 182–240): skip bot-authored and
empty messages, decide `addressed` (bot in the mention list, or "@grok" in
the lower-cased text), clean the content when addressed (markup removal,
lower-casing combined with token removal, trim), then run the append tail. -/
def seedProcessOne (msgs : List HistMessage) (botID channelID : String)
    (h : ChatHistory) (i : Nat) : ChatHistory :=
  match msgs.get? i with
  | none => h
  | some msg =>
    if msg.authorID == botID then h
    else
      let content := trimSpace msg.content
      let imageURLs := msg.imageURLs
      if content == "" && imageURLs.isEmpty then h
      else
        let addressed :=
          msg.mentionIDs.any (fun u => u == botID)
            || (content != "" && containsSubstr (toLowerStr content) "@grok")
        let cleanContent :=
          if addressed then
            trimSpace (replaceAll
              (toLowerStr (replaceAll content ("<@" ++ botID ++ ">") "")) "@grok" "")
          else content
        seedAppendTurns h channelID cleanContent imageURLs msg.authorUsername addressed
          (seedScanResponse msgs botID i)

/-- The per-channel body of `populateHistoryFromChannels` once the messages
have been fetched (bot.go lines 172–240): drop messages with no content and
no attachments, then process indices from the oldest (last index) to the
newest (index 0). -/
def populateHistoryChannel (msgs : List HistMessage) (botID channelID : String)
    (h : ChatHistory) : ChatHistory :=
  let validMessages := msgs.filter fun msg => msg.content != "" || msg.hasAttachments
  ((List.range validMessages.length).reverse).foldl
    (seedProcessOne validMessages botID channelID) h

theorem mem_Get_Append (h : ChatHistory) (k k' : String) (m m' : ChatMessage)
    (hm : m' ∈ (h.Append k m).Get k') : m' ∈ h.Get k' ∨ m' = m := by
  by_cases hk : k' = k
  · subst hk
    rw [ChatHistory.Get_Append_self] at hm
    have hsub := lastWindow_subset _ _ hm
    rcases List.mem_append.mp hsub with h1 | h2
    · exact Or.inl h1
    · exact Or.inr (List.mem_singleton.mp h2)
  · rw [ChatHistory.Get_Append_ne _ _ _ _ hk] at hm
    exact Or.inl hm

theorem messageEmpty_CreateMultimodalMessage (role t : String) (urls : List String)
    (u : String) (hne : t ≠ "" ∨ urls ≠ []) :
    messageEmpty (CreateMultimodalMessage role t urls u) = false := by
  unfold CreateMultimodalMessage
  by_cases hurl : urls.isEmpty
  · have hnil : urls = [] := by simpa using hurl
    rw [if_pos hurl]
    rcases hne with ht | hu2
    · simp [CreateTextMessage, messageEmpty, hasText, hasImages, ht]
    · exact absurd hnil hu2
  · rw [if_neg hurl]
    have hcons : ∃ a as, urls = a :: as := by
      cases urls with
      | nil => simp at hurl
      | cons a as => exact ⟨a, as, rfl⟩
    rcases hcons with ⟨a, as, rfl⟩
    simp [messageEmpty, hasImages, List.any_append]

theorem messageEmpty_assistant (r : String) (hr : r ≠ "") :
    messageEmpty (CreateTextMessage "assistant" r "") = false := by
  simp [CreateTextMessage, messageEmpty, hasText, hasImages, hr]

theorem seedAppendTurns_preserves (h : ChatHistory) (channelID cleanContent : String)
    (imageURLs : List String) (username : String) (addressed : Bool)
    (responseScan : Option String)
    (hinv : ∀ k m', m' ∈ h.Get k → messageEmpty m' = false) :
    ∀ k m', m' ∈ (seedAppendTurns h channelID cleanContent imageURLs username addressed
        responseScan).Get k → messageEmpty m' = false := by
  intro k m' hm
  unfold seedAppendTurns at hm
  split at hm
  · next hguard =>
    have huser : messageEmpty
        (CreateMultimodalMessage "user" cleanContent imageURLs username) = false := by
      apply messageEmpty_CreateMultimodalMessage
      rcases Bool.or_eq_true_iff.mp hguard with hg1 | hg2
      · exact Or.inl (by simpa using hg1)
      · exact Or.inr (by simpa using hg2)
    dsimp only at hm
    split at hm
    · split at hm
      · split at hm
        · next hrc =>
          rcases mem_Get_Append _ _ _ _ _ hm with hm1 | hm1
          · rcases mem_Get_Append _ _ _ _ _ hm1 with hm2 | hm2
            · exact hinv k m' hm2
            · rw [hm2]; exact huser
          · rw [hm1]
            exact messageEmpty_assistant _ (by simpa using hrc)
        · rcases mem_Get_Append _ _ _ _ _ hm with hm1 | hm1
          · exact hinv k m' hm1
          · rw [hm1]; exact huser
      · rcases mem_Get_Append _ _ _ _ _ hm with hm1 | hm1
        · exact hinv k m' hm1
        · rw [hm1]; exact huser
    · rcases mem_Get_Append _ _ _ _ _ hm with hm1 | hm1
      · exact hinv k m' hm1
      · rw [hm1]; exact huser
  · exact hinv k m' hm

theorem seedProcessOne_preserves (msgs : List HistMessage) (botID channelID : String)
    (h : ChatHistory) (i : Nat)
    (hinv : ∀ k m', m' ∈ h.Get k → messageEmpty m' = false) :
    ∀ k m', m' ∈ (seedProcessOne msgs botID channelID h i).Get k →
      messageEmpty m' = false := by
  intro k m' hm
  unfold seedProcessOne at hm
  split at hm
  · exact hinv k m' hm
  · split at hm
    · exact hinv k m' hm
    · dsimp only at hm
      split at hm
      · exact hinv k m' hm
      · exact seedAppendTurns_preserves _ _ _ _ _ _ _ hinv k m' hm

theorem foldl_seed_preserves (idxs : List Nat) (msgs : List HistMessage)
    (botID channelID : String) (h : ChatHistory)
    (hinv : ∀ k m', m' ∈ h.Get k → messageEmpty m' = false) :
    ∀ k m', m' ∈ (idxs.foldl (seedProcessOne msgs botID channelID) h).Get k →
      messageEmpty m' = false := by
  induction idxs generalizing h with
  | nil => exact hinv
  | cons i idxs ih =>
    exact ih _ (seedProcessOne_preserves msgs botID channelID h i hinv)

/-- C3 (amended): the startup seeding path never stores an empty message —
every message it appends has text or image parts — while the regular
handling path can append a user message with empty text and no image parts
(see the counterexample). -/
theorem seeding_no_empty_messages (msgs : List HistMessage) (botID channelID : String)
    (h : ChatHistory)
    (hinv : ∀ k m', m' ∈ h.Get k → messageEmpty m' = false) :
    ∀ k m', m' ∈ (populateHistoryChannel msgs botID channelID h).Get k →
      messageEmpty m' = false := by
  unfold populateHistoryChannel
  exact foldl_seed_preserves _ _ _ _ _ hinv

theorem seeding_no_empty_messages_witness :
    messageEmpty (ChatMessage.mk "user" (Content.str "hi") "alice") = false :=
  seeding_no_empty_messages
    [HistMessage.mk "A" "alice" "hi" [] [] false] "B" "ch" (NewChatHistory 3)
    (fun k m' hm => nomatch hm) "ch" (ChatMessage.mk "user" (Content.str "hi") "alice")
    (by decide)

/-- A heap of Go slice values: each allocated backing array is a reference
`r < next` into `data`. Used to state copy semantics of `Get`, which a pure
value model cannot distinguish from aliasing. -/
structure MemHeap where
  next : Nat
  data : Nat → List ChatMessage

/-- Variant of `ChatHistory` with explicit slice references: the map entry of a channel
is the reference of its current backing slice; `none` stands for a key never
written, whose Go map read yields the nil slice. -/
structure MemChatHistory where
  maxMessages : Nat
  channelToMessages : String → Option Nat

/-- Reading the slice a key currently maps to. -/
def MemChatHistory.read (h : MemChatHistory) (heap : MemHeap) (channelID : String) :
    List ChatMessage :=
  match h.channelToMessages channelID with
  | some r => heap.data r
  | none => []

/-- Method `Append` (history.go lines 25–36) in the aliasing model: build the
trimmed slice and record it under a fresh reference. -/
def MemChatHistory.Append (h : MemChatHistory) (heap : MemHeap) (channelID : String)
    (message : ChatMessage) : MemChatHistory × MemHeap :=
  let messages := h.read heap channelID ++ [message]
  let trimmed :=
    if messages.length > h.maxMessages then
      messages.drop (messages.length - h.maxMessages)
    else messages
  ({ h with channelToMessages := fun c =>
      if c = channelID then some heap.next else h.channelToMessages c },
   { next := heap.next + 1, data := fun j => if j = heap.next then trimmed else heap.data j })

/-- Method `Get` (history.go lines 39–47) in the aliasing model: `make` + `copy`
allocate a fresh slice with the same elements and return its reference. -/
def MemChatHistory.Get (h : MemChatHistory) (heap : MemHeap) (channelID : String) :
    Nat × MemHeap :=
  let src := h.read heap channelID
  (heap.next,
   { next := heap.next + 1, data := fun j => if j = heap.next then src else heap.data j })

/-- An in-place element write `out[i] = x` into a slice the caller holds. -/
def MemHeap.write (heap : MemHeap) (r i : Nat) (x : ChatMessage) : MemHeap :=
  { heap with data := fun j => if j = r then (heap.data r).set i x else heap.data j }

/-- Every slice reference recorded in the map has been allocated. -/
def MemWF (h : MemChatHistory) (heap : MemHeap) : Prop :=
  ∀ c r, h.channelToMessages c = some r → r < heap.next

/-- C7: `Get` has copy semantics — in the aliasing model, writing any
element of the slice a `Get` returned leaves the result of every subsequent
`Get` of that key unchanged — and `Get` of a key never touched by `Append`
is the empty sequence; `Get` is total, so no error is possible. -/
theorem get_copy_semantics_and_unseen_empty
    (h : MemChatHistory) (heap : MemHeap) (k : String) (i : Nat) (x : ChatMessage)
    (hwf : MemWF h heap) :
    ((h.Get ((h.Get heap k).2.write (h.Get heap k).1 i x) k).2.data
        (h.Get ((h.Get heap k).2.write (h.Get heap k).1 i x) k).1
      = (h.Get heap k).2.data (h.Get heap k).1)
    ∧ ∀ (C : Int) (ops : List (String × ChatMessage)),
        (∀ p ∈ ops, p.1 ≠ k) → (runAppendOps (NewChatHistory C) ops).Get k = [] := by
  constructor
  · unfold MemChatHistory.Get MemHeap.write MemChatHistory.read
    dsimp only
    cases hmk : h.channelToMessages k with
    | none => simp
    | some r =>
      have hr : r < heap.next := hwf k r hmk
      have hr1 : r ≠ heap.next := Nat.ne_of_lt hr
      have hr2 : r ≠ heap.next + 1 := by omega
      simp [hr1, hr2]
  · intro C ops hops
    rw [runAppendOps_unseen ops _ k hops]
    rfl

theorem get_copy_semantics_and_unseen_empty_witness :
    MemWF
      (MemChatHistory.mk 3 fun c => if c = "a" then some 0 else none)
      (MemHeap.mk 1 fun j => if j = 0 then [ChatMessage.mk "user" (Content.str "m") ""] else [])
    ∧ (((MemChatHistory.mk 3 fun c => if c = "a" then some 0 else none).Get
          (((MemChatHistory.mk 3 fun c => if c = "a" then some 0 else none).Get
              (MemHeap.mk 1 fun j =>
                if j = 0 then [ChatMessage.mk "user" (Content.str "m") ""] else [])
              "a").2.write
            ((MemChatHistory.mk 3 fun c => if c = "a" then some 0 else none).Get
              (MemHeap.mk 1 fun j =>
                if j = 0 then [ChatMessage.mk "user" (Content.str "m") ""] else [])
              "a").1
            0 (ChatMessage.mk "user" (Content.str "other") ""))
          "a").2.data
        ((MemChatHistory.mk 3 fun c => if c = "a" then some 0 else none).Get
          (((MemChatHistory.mk 3 fun c => if c = "a" then some 0 else none).Get
              (MemHeap.mk 1 fun j =>
                if j = 0 then [ChatMessage.mk "user" (Content.str "m") ""] else [])
              "a").2.write
            ((MemChatHistory.mk 3 fun c => if c = "a" then some 0 else none).Get
              (MemHeap.mk 1 fun j =>
                if j = 0 then [ChatMessage.mk "user" (Content.str "m") ""] else [])
              "a").1
            0 (ChatMessage.mk "user" (Content.str "other") ""))
          "a").1
      = ((MemChatHistory.mk 3 fun c => if c = "a" then some 0 else none).Get
          (MemHeap.mk 1 fun j =>
            if j = 0 then [ChatMessage.mk "user" (Content.str "m") ""] else [])
          "a").2.data
        ((MemChatHistory.mk 3 fun c => if c = "a" then some 0 else none).Get
          (MemHeap.mk 1 fun j =>
            if j = 0 then [ChatMessage.mk "user" (Content.str "m") ""] else [])
          "a").1) :=
  have hwf : MemWF
      (MemChatHistory.mk 3 fun c => if c = "a" then some 0 else none)
      (MemHeap.mk 1 fun j =>
        if j = 0 then [ChatMessage.mk "user" (Content.str "m") ""] else []) := by
    intro c r hc
    dsimp only at hc
    by_cases hca : c = "a"
    · rw [if_pos hca] at hc
      cases hc
      exact Nat.zero_lt_one
    · rw [if_neg hca] at hc
      cases hc
  ⟨hwf,
   (get_copy_semantics_and_unseen_empty
     (MemChatHistory.mk 3 fun c => if c = "a" then some 0 else none)
     (MemHeap.mk 1 fun j =>
       if j = 0 then [ChatMessage.mk "user" (Content.str "m") ""] else [])
     "a" 0 (ChatMessage.mk "user" (Content.str "other") "") hwf).1⟩
